import Mathlib

/-
Verification development for the LYServer plugin runtime.

Shallow embedding of the event model, payload codec, event bus primitives,
plugin manager handshake, WASM host calls and HTTP bridge of the lyserver
crates, together with theorems settling the specification claims.

Rust values are modelled as follows: byte vectors become `List Nat`,
strings stay `String`, `Result` becomes `Except String`, and code that can
panic returns an `RResult` with an explicit `panicked` outcome.  serde_cbor
values are modelled by the inductive `CValue` (the float-free fragment of
the serde data model) and serde_cbor serialization by a concrete
self-describing byte codec (`encodeC` / `decodeC`): a one-byte tag followed
by LEB128-style length/argument encodings, mirroring the CBOR
major-type-plus-argument wire discipline of serde_cbor at the level the
claims depend on (self-description and round-tripping).
-/

namespace LYServer

/-! ### LEB128-style unbounded natural number codec (argument encoding) -/

/-- Little-endian base-128 encoding of a natural number, last group bare. -/
def lebEncode (n : Nat) : List Nat :=
  if h : n < 128 then [n] else (128 + n % 128) :: lebEncode (n / 128)
termination_by n
decreasing_by
  simp_wf
  omega

/-- Decoder for `lebEncode`; returns the value and the remaining bytes. -/
def lebDecode : List Nat → Option (Nat × List Nat)
  | [] => none
  | b :: rest =>
    if b < 128 then some (b, rest)
    else
      match lebDecode rest with
      | some (m, r) => some ((b - 128) + 128 * m, r)
      | none => none

/-! ### The serde_cbor value model -/

/-- Model of serde_cbor::Value restricted to the float-free fragment the
claims are about: null, booleans, integers, byte strings, text and arrays. -/
inductive CValue where
  | null : CValue
  | boolean (b : Bool) : CValue
  | int (n : Int) : CValue
  | bytes (bs : List Nat) : CValue
  | text (s : String) : CValue
  | array (xs : List CValue) : CValue

/-- Character-sequence encoding used inside `encodeC` for text values. -/
def encodeChars : List Char → List Nat
  | [] => []
  | c :: cs => lebEncode c.toNat ++ encodeChars cs

/-- Decoder for `encodeChars`: reads a fixed number of characters. -/
def decodeChars : Nat → List Nat → Option (List Char × List Nat)
  | 0, r => some ([], r)
  | k+1, r =>
    match lebDecode r with
    | some (n, r1) =>
      match decodeChars k r1 with
      | some (cs, r2) => some (Char.ofNat n :: cs, r2)
      | none => none
    | none => none

mutual

/-- Byte-level encoder for `CValue`: models serde_cbor::to_vec.  A one-byte
tag (0 null, 1 false, 2 true, 3 non-negative int, 4 negative int, 5 bytes,
6 text, 7 array) followed by the argument, as in CBOR major types. -/
def encodeC : CValue → List Nat
  | .null => [0]
  | .boolean false => [1]
  | .boolean true => [2]
  | .int n =>
    if 0 ≤ n then 3 :: lebEncode n.toNat else 4 :: lebEncode (-(n+1)).toNat
  | .bytes bs => 5 :: (lebEncode bs.length ++ bs)
  | .text s => 6 :: (lebEncode s.data.length ++ encodeChars s.data)
  | .array xs => 7 :: (lebEncode xs.length ++ encodeItems xs)

/-- Concatenated encodings of a list of values (array elements). -/
def encodeItems : List CValue → List Nat
  | [] => []
  | v :: vs => encodeC v ++ encodeItems vs

end

mutual

/-- Fuel-indexed decoder for `encodeC`: models serde_cbor deserialization.
Returns the decoded value and the remaining bytes, or `none` on malformed
or truncated input (or fuel exhaustion, which sufficient fuel avoids). -/
def decodeC : Nat → List Nat → Option (CValue × List Nat)
  | 0, _ => none
  | _+1, [] => none
  | fuel+1, b :: rest =>
    if b = 0 then some (.null, rest)
    else if b = 1 then some (.boolean false, rest)
    else if b = 2 then some (.boolean true, rest)
    else if b = 3 then
      match lebDecode rest with
      | some (n, r) => some (.int (Int.ofNat n), r)
      | none => none
    else if b = 4 then
      match lebDecode rest with
      | some (n, r) => some (.int (-(Int.ofNat n + 1)), r)
      | none => none
    else if b = 5 then
      match lebDecode rest with
      | some (len, r) =>
        if len ≤ r.length then some (.bytes (r.take len), r.drop len) else none
      | none => none
    else if b = 6 then
      match lebDecode rest with
      | some (len, r) =>
        match decodeChars len r with
        | some (cs, r2) => some (.text (String.mk cs), r2)
        | none => none
      | none => none
    else if b = 7 then
      match lebDecode rest with
      | some (len, r) =>
        match decodeItems fuel len r with
        | some (vs, r2) => some (.array vs, r2)
        | none => none
      | none => none
    else none
termination_by fuel _ => (fuel, 0)

/-- Decodes a fixed number of consecutive values (array elements). -/
def decodeItems : Nat → Nat → List Nat → Option (List CValue × List Nat)
  | _, 0, r => some ([], r)
  | fuel, k+1, r =>
    match decodeC fuel r with
    | some (v, r1) =>
      match decodeItems fuel k r1 with
      | some (vs, r2) => some (v :: vs, r2)
      | none => none
    | none => none
termination_by fuel k _ => (fuel, k + 1)

end

/-! ### Event model (crate lyserver_messaging_shared, src/lib.rs) -/

/-- Model of enum LYServerMessageEventTarget: All or Plugin(id). -/
inductive LYServerMessageEventTarget where
  | all : LYServerMessageEventTarget
  | plugin (id : String) : LYServerMessageEventTarget
deriving DecidableEq

/-- Model of the ToString impl for LYServerMessageEventTarget. -/
def LYServerMessageEventTarget.toStr : LYServerMessageEventTarget → String
  | .all => "all"
  | .plugin id => id

/-- Model of impl From of String for LYServerMessageEventTarget: every
string, including "all", becomes Plugin(s). -/
def LYServerMessageEventTarget.fromString (s : String) : LYServerMessageEventTarget :=
  .plugin s

/-- Model of impl From of a string slice for LYServerMessageEventTarget:
identical to the From String impl. -/
def LYServerMessageEventTarget.fromStr (s : String) : LYServerMessageEventTarget :=
  .plugin s

/-- Model of struct LYServerMessageEvent; the data field holds the CBOR
payload bytes. -/
structure LYServerMessageEvent where
  event_id : String
  event_type : String
  event_target : LYServerMessageEventTarget
  event_sender : LYServerMessageEventTarget
  data : List Nat
deriving DecidableEq

/-- Model of serde_cbor::to_vec on the value model. -/
def to_vec (v : CValue) : List Nat := encodeC v

/-- Model of serde_cbor::from_slice on the value model: decodes one value
and requires all input bytes to be consumed. -/
def from_slice (bs : List Nat) : Except String CValue :=
  match decodeC (bs.length + 1) bs with
  | some (v, []) => .ok v
  | some (_, _ :: _) => .error "trailing data in CBOR payload"
  | none => .error "invalid or truncated CBOR payload"

/-- Model of serde_cbor::value::from_value at the value type itself. -/
def from_value (v : CValue) : Except String CValue := .ok v

/-- Model of LYServerMessageEvent::data_as: decode the payload bytes to a
CBOR value, then convert the value to the requested type. -/
def LYServerMessageEvent.data_as (e : LYServerMessageEvent) : Except String CValue :=
  match from_slice e.data with
  | .ok v => from_value v
  | .error msg => .error msg

/-- Model of LYServerMessageEvent::reply: keeps the event id of the
original event, targets the original sender, takes the given sender and
event type, and serializes the given data.  The receiver is taken by
shared reference in the source, so the original event is not modified;
the model is a pure function of it. -/
def LYServerMessageEvent.reply (e : LYServerMessageEvent) (event_type : String)
    (sender : LYServerMessageEventTarget) (d : CValue) :
    Except String LYServerMessageEvent :=
  .ok ⟨e.event_id, event_type, e.event_sender, sender, to_vec d⟩

/-- Model of LYServerMessageEvent::new.  The source draws event_id from
lyserver_random_id::generate(); the generated id is passed explicitly. -/
def LYServerMessageEvent.new (genId : String) (event_type : String)
    (target sender : LYServerMessageEventTarget) (d : CValue) :
    LYServerMessageEvent :=
  ⟨genId, event_type, target, sender, to_vec d⟩

/-- The plugin_init event built by the WASM hello plugin
(crate lyserver_hello_plugin, src/lib.rs): target and sender are string
literals converted through the From impls. -/
def helloInitEvent (genId : String) : LYServerMessageEvent :=
  LYServerMessageEvent.new genId "plugin_init"
    (LYServerMessageEventTarget.fromStr "all")
    (LYServerMessageEventTarget.fromStr "hello@lyserver")
    (.int 0)

/-! ### Rust computations with panics -/

/-- Outcome of a Rust computation: a value, an error return, or a panic. -/
inductive RResult (α : Type) where
  | ok (a : α) : RResult α
  | err (msg : String) : RResult α
  | panicked : RResult α
deriving DecidableEq

/-- Sequencing of Rust computations: errors and panics propagate. -/
def RResult.bind {α β : Type} : RResult α → (α → RResult β) → RResult β
  | .ok a, f => f a
  | .err msg, _ => .err msg
  | .panicked, _ => .panicked

/-! ### TryFrom of serde_cbor::Value for LYServerMessageEvent
(crate lyserver_messaging_shared, src/lib.rs, lines 35 to 77) -/

/-- Rust Vec indexing: arr[i] yields the element or panics out of bounds. -/
def vecIndex : List CValue → Nat → RResult CValue
  | [], _ => .panicked
  | a :: _, 0 => .ok a
  | _ :: l, n+1 => vecIndex l n

/-- The match arm: bytes are extracted, anything else bails with the
given message. -/
def expectBytes (v : CValue) (msg : String) : RResult (List Nat) :=
  match v with
  | .bytes b => .ok b
  | _ => .err msg

/-- The match arm: text is extracted, anything else bails with the given
message. -/
def expectText (v : CValue) (msg : String) : RResult String :=
  match v with
  | .text s => .ok s
  | _ => .err msg

/-- Model of impl TryFrom of Value for LYServerMessageEvent: requires an
array, then indexes elements 0 to 4 (data, event_id, event_type,
event_sender, event_target) with panicking Vec indexing. -/
def tryFromValue (v : CValue) : RResult LYServerMessageEvent :=
  match v with
  | .array arr =>
    (vecIndex arr 0).bind fun a0 =>
    (expectBytes a0 "Expected event_data as bytes").bind fun dat =>
    (vecIndex arr 1).bind fun a1 =>
    (expectText a1 "Expected event_id as text").bind fun event_id =>
    (vecIndex arr 2).bind fun a2 =>
    (expectText a2 "Expected event_type as text").bind fun event_type =>
    (vecIndex arr 3).bind fun a3 =>
    (expectText a3 "Expected event_sender as text").bind fun event_sender =>
    (vecIndex arr 4).bind fun a4 =>
    (expectText a4 "Expected event_target as text").bind fun event_target =>
    .ok ⟨event_id, event_type,
      LYServerMessageEventTarget.fromString event_target,
      LYServerMessageEventTarget.fromString event_sender, dat⟩
  | _ => .err "Expected CBOR array with 4 elements"

/-- Is the value a CBOR array? -/
def CValue.isArray : CValue → Bool
  | .array _ => true
  | _ => false

/-- At most k further elements, all of them text values. -/
def textPrefixAtMost : Nat → List CValue → Bool
  | _, [] => true
  | 0, _ :: _ => false
  | k+1, .text _ :: rest => textPrefixAtMost k rest
  | _+1, _ => false

/-- An array of fewer than five elements all of which match the expected
shapes at their positions (bytes first, then text): exactly the short
arrays on which every executed match arm succeeds, so that the failure is
the out-of-bounds index. -/
def shortWellTyped : List CValue → Bool
  | [] => true
  | .bytes _ :: rest => textPrefixAtMost 3 rest
  | _ => false

/-! ### WASM host calls (crate lyserver_plugin_wasm_loader, src/lib.rs)

Each guest-facing host call receives a ptr/len pair of wasm i32 values and
reads guest memory with mem.data(caller)[start..end] where
start = ptr as usize and end = start + len as usize.  Rust range slicing
panics when start exceeds end or end exceeds the slice length; no bounds
check precedes it and no error value is produced. -/

/-- The i32-to-usize cast: sign extension to 64 bits. -/
def usizeOfI32 (i : Int) : Nat := (i % (2:Int)^64).toNat

/-- Model of mem.data(caller)[start..end].to_vec() with
start = ptr as usize and end = start + len as usize (release-mode wrapping
for the addition): yields the selected bytes, or a panic when the range is
invalid or extends past the end of guest memory. -/
def guestSliceRead (mem : List Nat) (ptr len : Int) : RResult (List Nat) :=
  let start := usizeOfI32 ptr
  let stop := (start + usizeOfI32 len) % 2^64
  if start ≤ stop ∧ stop ≤ mem.length then .ok ((mem.take stop).drop start)
  else .panicked

/-- Host call lyserver_plugin_stdout_write: reads the guest window and
writes it to stdout; the read is the unchecked slice. -/
def lyserver_plugin_stdout_write (mem : List Nat) (ptr len : Int) :
    RResult (List Nat) :=
  guestSliceRead mem ptr len

/-- Host call lyserver_plugin_log_info: same unchecked slice read. -/
def lyserver_plugin_log_info (mem : List Nat) (ptr len : Int) :
    RResult (List Nat) :=
  guestSliceRead mem ptr len

/-- Host call lyserver_plugin_log_warn: same unchecked slice read. -/
def lyserver_plugin_log_warn (mem : List Nat) (ptr len : Int) :
    RResult (List Nat) :=
  guestSliceRead mem ptr len

/-- Host call lyserver_plugin_log_error: same unchecked slice read. -/
def lyserver_plugin_log_error (mem : List Nat) (ptr len : Int) :
    RResult (List Nat) :=
  guestSliceRead mem ptr len

/-- Host call lyserver_plugin_log_debug: same unchecked slice read. -/
def lyserver_plugin_log_debug (mem : List Nat) (ptr len : Int) :
    RResult (List Nat) :=
  guestSliceRead mem ptr len

/-- The read phase of host call lyserver_plugin_send_message: the event
bytes are read from the guest window with the same unchecked slice before
being parsed and dispatched. -/
def lyserver_plugin_send_message_read (mem : List Nat) (ptr len : Int) :
    RResult (List Nat) :=
  guestSliceRead mem ptr len

/-! ### Event bus primitives (crate lyserver_plugin_shared_data, src/lib.rs) -/

/-- One outcome yielded by broadcast Receiver::recv inside
wait_until_event: an event, or an error (Lagged or Closed; the source
treats both alike there and keeps looping). -/
inductive RecvOutcome where
  | ok (e : LYServerMessageEvent) : RecvOutcome
  | recvErr : RecvOutcome

/-- Model of LYServerPluginSharedData::wait_until_event.  The argument
list holds the outcomes the freshly subscribed receiver yields before the
timeout fires; the source loops, returning the first event satisfying the
predicate, skipping events that fail it and receive errors alike, and the
surrounding tokio timeout maps an exhausted wait to None. -/
def waitUntilEvent (p : LYServerMessageEvent → Bool) :
    List RecvOutcome → Option LYServerMessageEvent
  | [] => none
  | .ok e :: rest => if p e then some e else waitUntilEvent p rest
  | .recvErr :: rest => waitUntilEvent p rest

/-- Outcome of broadcast Receiver::recv as seen by receive_event:
an event, a lag report, or closed. -/
inductive BroadcastRecv where
  | ok (e : LYServerMessageEvent) : BroadcastRecv
  | lagged (n : Nat) : BroadcastRecv
  | closed : BroadcastRecv

/-- A fresh broadcast subscription starts at the current end of the
sender history, so it can only see later events. -/
def subscribeCursor (sentAtCall : List LYServerMessageEvent) : Nat :=
  sentAtCall.length

/-- Model of broadcast Receiver::recv against the full send history:
at a cursor past the history the channel has closed (or the wait was
abandoned); a cursor more than the channel capacity behind the head
reports Lagged; otherwise the event at the cursor is delivered. -/
def recvFrom (sent : List LYServerMessageEvent) (cursor cap : Nat) :
    BroadcastRecv :=
  if h : cursor < sent.length then
    if sent.length - cursor > cap then .lagged (sent.length - cap - cursor)
    else .ok (sent.get ⟨cursor, h⟩)
  else .closed

/-- Model of LYServerPluginSharedData::receive_event: subscribes a fresh
receiver at call time (cursor at the end of the history already sent) and
maps the single recv outcome: an event to Some, Lagged to None (after a
warning log), any other error to None.  sentAtCall are the events
dispatched before the call, extra those dispatched between the call and
the completion of recv. -/
def receive_event (sentAtCall extra : List LYServerMessageEvent)
    (cap : Nat) : Option LYServerMessageEvent :=
  match recvFrom (sentAtCall ++ extra) (subscribeCursor sentAtCall) cap with
  | .ok e => some e
  | .lagged _ => none
  | .closed => none

/-- Model of the caller pattern while let Some(event) = receive_event()
(for example LYServerPreferencesPlugin::init): consumes results until the
first None, after which the loop has exited for good. -/
def whileLetLoop : List (Option LYServerMessageEvent) →
    List LYServerMessageEvent
  | [] => []
  | none :: _ => []
  | some e :: rest => e :: whileLetLoop rest

/-! ### Shared registry messaging (crate lyserver_shared_data,
src/messaging.rs) -/

/-- Model of LYServerSharedDataMessaging::register_plugin_messaging over
the messaging_plugin_tx map (an association list from plugin id to the
sender, modelled by a numeric handle): if the id is already present the
call fails and the map is untouched, otherwise the pair is inserted. -/
def register_plugin_messaging (m : List (String × Nat)) (plugin_id : String)
    (tx : Nat) : Except String Unit × List (String × Nat) :=
  if m.any fun kv => kv.1 == plugin_id then
    (.error ("Plugin " ++ plugin_id ++ " is already registered for messaging"), m)
  else
    (.ok (), (plugin_id, tx) :: m)

/-! ### Plugin manager init handshake (crate lyserver, src/plugins.rs) -/

/-- The handshake timeout passed to wait_until_event:
Duration::from_secs(10). -/
def handshakeTimeoutSecs : Nat := 10

/-- The handshake predicate: any event whose event_type is plugin_init. -/
def initHandshakePredicate (e : LYServerMessageEvent) : Bool :=
  e.event_type == "plugin_init"

/-- A loaded-plugin record as the claim observes it: the plugin id of the
record pushed to loaded_plugins, and whether its CancellationToken has
been cancelled. -/
structure LoadedPluginRecord where
  pluginId : String
  cancelled : Bool
deriving DecidableEq

/-- Model of the tail of LYServerPluginManager::load_plugin after the
record was pushed and the supervisor spawned: wait (with the 10 s
timeout) for a plugin_init event; on None the source logs and returns an
Err string, performing no other action, so the loaded-plugin list and the
cancellation token are returned unchanged in both branches. -/
def load_plugin_tail (loadedPlugins : List LoadedPluginRecord)
    (pluginId : String) (arrivals : List RecvOutcome) :
    Except String String × List LoadedPluginRecord :=
  match waitUntilEvent initHandshakePredicate arrivals with
  | some _ => (.ok pluginId, loadedPlugins)
  | none =>
    (.error ("Plugin " ++ pluginId ++ " did not initialize within 10s"),
     loadedPlugins)

/-! ### HTTP bridge (crate lyserver_http, src/api/plugin.rs) -/

/-- The operations of LYServerRouterPluginMiddleware::call in source
order, with each wait_until_event call expanded to its first action (the
fresh tx.subscribe() at the top of wait_until_event) followed by the
awaiting loop. -/
inductive BridgeStep where
  | readBody : BridgeStep
  | createEvent : BridgeStep
  | dispatchEvent : BridgeStep
  | subscribeReceiver : BridgeStep
  | awaitIntent : BridgeStep
  | awaitResponse : BridgeStep
  | translateResponse : BridgeStep
deriving DecidableEq

/-- The source order of the bridge operations: body collection, event
construction, dispatch_event, then the intent wait_until_event
(subscribe, await), then the response wait_until_event (subscribe,
await), then response translation. -/
def bridgeCallSteps : List BridgeStep :=
  [.readBody, .createEvent, .dispatchEvent,
   .subscribeReceiver, .awaitIntent,
   .subscribeReceiver, .awaitResponse,
   .translateResponse]

/-- The intent wait predicate: event_type http_request_handle_intent and
the event id of the dispatched request event. -/
def intentPredicate (msgId : String) (e : LYServerMessageEvent) : Bool :=
  e.event_type == "http_request_handle_intent" && e.event_id == msgId

/-- The response wait predicate: event_type http_response and the event
id of the dispatched request event. -/
def responsePredicate (msgId : String) (e : LYServerMessageEvent) : Bool :=
  e.event_type == "http_response" && e.event_id == msgId

/-- The intent wait timeout: Duration::from_secs(5). -/
def intentTimeoutSecs : Nat := 5

/-- The response wait timeout: Duration::from_secs(60). -/
def responseTimeoutSecs : Nat := 60

/-- What the bridge hands back to the HTTP client. -/
inductive BridgeOutcome where
  | ok (response : LYServerMessageEvent) : BridgeOutcome
  | fallback500 (msg : String) : BridgeOutcome
deriving DecidableEq

/-- Model of the result handling in the bridge: a missing intent or a
missing response becomes an Err, which the match at the end of call turns
into an InternalServerError (500) response carrying the message; a
received response event is translated back to the client. -/
def bridgeResolve (intentRes respRes : Option LYServerMessageEvent) :
    BridgeOutcome :=
  match intentRes with
  | none => .fallback500 "No plugin responded with intent"
  | some _ =>
    match respRes with
    | none => .fallback500 "Plugin response timed out after 60s"
    | some reply => .ok reply

/-- The two waits of the bridge wired to wait_until_event: the intent
arrivals are the receiver outcomes of the first wait, the response
arrivals those of the second. -/
def bridgeAwait (msgId : String)
    (intentArrivals respArrivals : List RecvOutcome) : BridgeOutcome :=
  bridgeResolve (waitUntilEvent (intentPredicate msgId) intentArrivals)
    (waitUntilEvent (responsePredicate msgId) respArrivals)

/-! ### Codec round-trip lemmas -/

theorem lebEncode_length_pos (m : Nat) : 0 < (lebEncode m).length := by
  rw [lebEncode]
  split <;> simp

theorem lebDecode_lebEncode (n : Nat) :
    ∀ r, lebDecode (lebEncode n ++ r) = some (n, r) := by
  induction n using Nat.strong_induction_on with
  | _ n ih =>
    intro r
    rw [lebEncode]
    split
    · next h => simp [lebDecode, h]
    · next h =>
      have h2 : ¬ (128 + n % 128 < 128) := by omega
      simp only [List.cons_append, lebDecode, if_neg h2, List.append_eq]
      rw [ih (n / 128) (by omega) r]
      simp
      omega

theorem decodeChars_encodeChars (cs : List Char) :
    ∀ r, decodeChars cs.length (encodeChars cs ++ r) = some (cs, r) := by
  induction cs with
  | nil =>
    intro r
    simp [encodeChars, decodeChars]
  | cons c cs ih =>
    intro r
    simp only [encodeChars, List.length_cons, decodeChars,
      List.append_assoc, lebDecode_lebEncode, ih]
    simp

theorem decode_encode_all (fuel : Nat) :
    (∀ v r, (encodeC v).length < fuel →
      decodeC fuel (encodeC v ++ r) = some (v, r)) ∧
    (∀ xs r, (encodeItems xs).length < fuel →
      decodeItems fuel xs.length (encodeItems xs ++ r) = some (xs, r)) := by
  induction fuel with
  | zero =>
    constructor
    · intro v r h
      exact absurd h (Nat.not_lt_zero _)
    · intro xs r h
      exact absurd h (Nat.not_lt_zero _)
  | succ n ih =>
    obtain ⟨ihV, ihI⟩ := ih
    have hV : ∀ v r, (encodeC v).length < n + 1 →
        decodeC (n+1) (encodeC v ++ r) = some (v, r) := by
      intro v r h
      match v with
      | .null => simp [encodeC, decodeC]
      | .boolean true => simp [encodeC, decodeC]
      | .boolean false => simp [encodeC, decodeC]
      | .int m =>
        rcases le_or_lt 0 m with hm | hm
        · simp [encodeC, hm, decodeC, lebDecode_lebEncode,
            Int.toNat_of_nonneg hm]
        · have hm2 : ¬ (0 ≤ m) := by omega
          have ht : (((-(m+1)).toNat : Int)) = -(m+1) :=
            Int.toNat_of_nonneg (by omega)
          simp [encodeC, hm2, decodeC, lebDecode_lebEncode, ht]
          omega
      | .bytes bs =>
        simp only [encodeC, List.cons_append, List.append_assoc, decodeC]
        norm_num
        rw [lebDecode_lebEncode]
        simp only []
        rw [if_pos (by simp)]
        rw [List.take_left, List.drop_left]
      | .text s =>
        obtain ⟨cs⟩ := s
        simp only [encodeC, List.cons_append, List.append_assoc, decodeC]
        norm_num
        rw [lebDecode_lebEncode]
        simp only [String.data]
        rw [decodeChars_encodeChars]
      | .array xs =>
        have hlen : (encodeItems xs).length < n := by
          have hp := lebEncode_length_pos xs.length
          simp only [encodeC, List.length_cons, List.length_append] at h
          omega
        simp only [encodeC, List.cons_append, List.append_assoc, decodeC]
        norm_num
        rw [lebDecode_lebEncode]
        simp only []
        rw [ihI xs r hlen]
    have hI : ∀ xs r, (encodeItems xs).length < n + 1 →
        decodeItems (n+1) xs.length (encodeItems xs ++ r) = some (xs, r) := by
      intro xs
      induction xs with
      | nil =>
        intro r h
        simp [encodeItems, decodeItems]
      | cons x vs ihxs =>
        intro r h
        simp only [encodeItems, List.length_append] at h
        simp only [encodeItems, List.length_cons, decodeItems,
          List.append_assoc]
        rw [hV x (encodeItems vs ++ r) (by omega)]
        simp only [ihxs r (by omega)]
    exact ⟨hV, hI⟩

theorem from_slice_to_vec (v : CValue) : from_slice (to_vec v) = .ok v := by
  have h := (decode_encode_all ((encodeC v).length + 1)).1 v []
    (by omega)
  rw [List.append_nil] at h
  simp only [to_vec, from_slice]
  rw [h]

/-! ### Claim theorems -/

/-- Claim C1: for every event E and all inputs t, s, d on which reply
succeeds, the returned event has the event id of E, targets the sender of
E, carries sender s and event type t.  E itself is unchanged: the source
takes the receiver by shared reference and only clones its fields, so the
model is a pure function of it. -/
theorem c1_reply_correlation (e : LYServerMessageEvent) (t : String)
    (s : LYServerMessageEventTarget) (d : CValue)
    (e2 : LYServerMessageEvent) (h : e.reply t s d = .ok e2) :
    e2.event_id = e.event_id ∧ e2.event_target = e.event_sender ∧
    e2.event_sender = s ∧ e2.event_type = t := by
  simp only [LYServerMessageEvent.reply, Except.ok.injEq] at h
  subst h
  exact ⟨rfl, rfl, rfl, rfl⟩

/-- Witness for C1 at a concrete request event and reply. -/
theorem c1_reply_correlation_witness :
    ((⟨"rid", "http_request", LYServerMessageEventTarget.all,
        LYServerMessageEventTarget.plugin "client", []⟩ :
        LYServerMessageEvent).reply "http_response"
        (LYServerMessageEventTarget.plugin "hello") CValue.null =
      Except.ok ⟨"rid", "http_response",
        LYServerMessageEventTarget.plugin "client",
        LYServerMessageEventTarget.plugin "hello", [0]⟩) ∧
    ((⟨"rid", "http_response", LYServerMessageEventTarget.plugin "client",
        LYServerMessageEventTarget.plugin "hello", [0]⟩ :
        LYServerMessageEvent).event_id =
      (⟨"rid", "http_request", LYServerMessageEventTarget.all,
        LYServerMessageEventTarget.plugin "client", []⟩ :
        LYServerMessageEvent).event_id) :=
  ⟨rfl,
   (c1_reply_correlation
      ⟨"rid", "http_request", LYServerMessageEventTarget.all,
        LYServerMessageEventTarget.plugin "client", []⟩
      "http_response" (LYServerMessageEventTarget.plugin "hello")
      CValue.null
      ⟨"rid", "http_response", LYServerMessageEventTarget.plugin "client",
        LYServerMessageEventTarget.plugin "hello", [0]⟩ rfl).1⟩

/-- Claim C2: for every serializable value v (modelled by the CBOR value
universe), an event built by LYServerMessageEvent::new carries a payload
that data_as decodes back to exactly v: the payload codec round-trips. -/
theorem c2_payload_roundtrip (genId t : String)
    (tg s : LYServerMessageEventTarget) (v : CValue) :
    (LYServerMessageEvent.new genId t tg s v).data_as = .ok v := by
  simp only [LYServerMessageEvent.new, LYServerMessageEvent.data_as]
  rw [from_slice_to_vec]
  rfl

/-- Claim C6: wait_until_event returns Some only for an event satisfying
the predicate (events failing it are rejected and waiting continues, as
are receive errors), and returns None when nothing arriving before the
timeout satisfies it. -/
theorem c6_wait_until (p : LYServerMessageEvent → Bool)
    (arrivals : List RecvOutcome) :
    (∀ e, waitUntilEvent p arrivals = some e → p e = true) ∧
    ((arrivals.all fun o => match o with
        | .ok e => !(p e)
        | .recvErr => true) = true →
      waitUntilEvent p arrivals = none) := by
  induction arrivals with
  | nil =>
    refine ⟨?_, ?_⟩
    · intro e h
      simp [waitUntilEvent] at h
    · intro _
      rfl
  | cons o rest ih =>
    obtain ⟨ih1, ih2⟩ := ih
    cases o with
    | ok e =>
      by_cases hp : p e
      · refine ⟨?_, ?_⟩
        · intro e2 h
          simp only [waitUntilEvent, if_pos hp, Option.some.injEq] at h
          rw [← h]
          exact hp
        · intro hall
          simp only [List.all_cons, Bool.and_eq_true, Bool.not_eq_true'] at hall
          rw [hall.1] at hp
          exact Bool.noConfusion hp
      · refine ⟨?_, ?_⟩
        · intro e2 h
          simp only [waitUntilEvent, if_neg hp] at h
          exact ih1 e2 h
        · intro hall
          simp only [List.all_cons, Bool.and_eq_true] at hall
          simp only [waitUntilEvent, if_neg hp]
          exact ih2 hall.2
    | recvErr =>
      refine ⟨?_, ?_⟩
      · intro e2 h
        simp only [waitUntilEvent] at h
        exact ih1 e2 h
      · intro hall
        simp only [List.all_cons, Bool.and_eq_true] at hall
        simp only [waitUntilEvent]
        exact ih2 hall.2

/-- Witness for C6: a matching wait that skips a receive error and a
non-matching event, and an exhausted wait that returns None. -/
theorem c6_wait_until_witness :
    ((⟨"i1", "plugin_init", LYServerMessageEventTarget.all,
        LYServerMessageEventTarget.plugin "hello", []⟩ :
        LYServerMessageEvent).event_type == "plugin_init") = true ∧
    waitUntilEvent (fun e => e.event_type == "plugin_init")
      [.ok ⟨"o1", "http_request", LYServerMessageEventTarget.all,
        LYServerMessageEventTarget.plugin "http", []⟩, .recvErr] = none :=
  ⟨(c6_wait_until (fun e => e.event_type == "plugin_init")
      [.recvErr,
       .ok ⟨"o1", "http_request", LYServerMessageEventTarget.all,
         LYServerMessageEventTarget.plugin "http", []⟩,
       .ok ⟨"i1", "plugin_init", LYServerMessageEventTarget.all,
         LYServerMessageEventTarget.plugin "hello", []⟩]).1
      ⟨"i1", "plugin_init", LYServerMessageEventTarget.all,
        LYServerMessageEventTarget.plugin "hello", []⟩ (by decide),
   (c6_wait_until (fun e => e.event_type == "plugin_init")
      [.ok ⟨"o1", "http_request", LYServerMessageEventTarget.all,
        LYServerMessageEventTarget.plugin "http", []⟩, .recvErr]).2
      (by decide)⟩

/-- Claim C7: register_plugin_messaging fails and leaves the map
unchanged when the id is already present, and otherwise succeeds leaving
exactly one entry for the id in the map. -/
theorem c7_register_plugin_messaging (m : List (String × Nat))
    (pid : String) (tx : Nat) :
    ((m.any fun kv => kv.1 == pid) = true →
      register_plugin_messaging m pid tx =
        (.error ("Plugin " ++ pid ++ " is already registered for messaging"),
         m)) ∧
    ((m.any fun kv => kv.1 == pid) = false →
      (register_plugin_messaging m pid tx).1 = .ok () ∧
      ((register_plugin_messaging m pid tx).2.countP
        fun kv => kv.1 == pid) = 1) := by
  constructor
  · intro h
    simp [register_plugin_messaging, h]
  · intro h
    have hif : register_plugin_messaging m pid tx = (.ok (), (pid, tx) :: m) := by
      simp [register_plugin_messaging, h]
    rw [hif]
    refine ⟨rfl, ?_⟩
    show ((pid, tx) :: m).countP (fun kv => kv.1 == pid) = 1
    have hz : (m.countP fun kv => kv.1 == pid) = 0 := by
      rw [List.countP_eq_zero]
      exact fun a ha => (List.any_eq_false.mp h) a ha
    simp [List.countP_cons, hz]

/-- Claim C8: both string-to-target conversions always yield Plugin(s),
never All; in particular "all" converts to Plugin("all"), the
target-to-string-to-target round trip fails for All, and the WASM hello
plugin's plugin_init event built with target "all" is a directed event
aimed at a plugin literally named "all", not a broadcast. -/
theorem c8_string_target_conversions (s genId : String) :
    LYServerMessageEventTarget.fromString s = .plugin s ∧
    LYServerMessageEventTarget.fromStr s = .plugin s ∧
    LYServerMessageEventTarget.fromString "all" = .plugin "all" ∧
    LYServerMessageEventTarget.fromString
      (LYServerMessageEventTarget.toStr .all) ≠ .all ∧
    (helloInitEvent genId).event_target = .plugin "all" ∧
    (helloInitEvent genId).event_target ≠ .all := by
  refine ⟨rfl, rfl, rfl, by decide, rfl, ?_⟩
  intro h
  exact LYServerMessageEventTarget.noConfusion h

/-- Claim C10: receive_event subscribes a fresh broadcast receiver at
call time, so a returned event was dispatched after the call began; a
Lagged receive yields None even though the channel is still open (more
events were dispatched); and a caller loop of the form
while let Some(event) = receive_event() stops for good at the first None. -/
theorem c10_receive_event (sentAtCall extra : List LYServerMessageEvent)
    (cap : Nat) :
    (∀ e, receive_event sentAtCall extra cap = some e → e ∈ extra) ∧
    (extra.length > cap → receive_event sentAtCall extra cap = none) ∧
    (∀ handled rest,
      whileLetLoop (handled.map some ++ none :: rest) = handled) := by
  refine ⟨?_, ?_, ?_⟩
  · intro e h
    simp only [receive_event, recvFrom, subscribeCursor] at h
    by_cases hlt : sentAtCall.length < (sentAtCall ++ extra).length
    · rw [dif_pos hlt] at h
      by_cases hlag : (sentAtCall ++ extra).length - sentAtCall.length > cap
      · rw [if_pos hlag] at h
        exact Option.noConfusion h
      · rw [if_neg hlag] at h
        have hg : (sentAtCall ++ extra).get ⟨sentAtCall.length, hlt⟩ = e :=
          Option.some.inj h
        rw [← hg, List.get_eq_getElem,
          List.getElem_append_right (Nat.le_refl sentAtCall.length)]
        exact List.getElem_mem _
    · rw [dif_neg hlt] at h
      exact Option.noConfusion h
  · intro hgt
    simp only [receive_event, recvFrom, subscribeCursor]
    rw [dif_pos (by simp only [List.length_append]; omega)]
    rw [if_pos (by simp only [List.length_append]; omega)]
  · intro handled rest
    induction handled with
    | nil => rfl
    | cons x xs ih => simp [whileLetLoop, ih]

/-- Witness for C10: a concrete received event lies among the events
dispatched after the call, and a receive over a capacity-1 channel with
two newer events lags to None. -/
theorem c10_receive_event_witness :
    ((⟨"b", "t2", LYServerMessageEventTarget.all,
        LYServerMessageEventTarget.all, []⟩ : LYServerMessageEvent) ∈
      [(⟨"b", "t2", LYServerMessageEventTarget.all,
        LYServerMessageEventTarget.all, []⟩ : LYServerMessageEvent)]) ∧
    receive_event
      [⟨"a", "t1", LYServerMessageEventTarget.all,
        LYServerMessageEventTarget.all, []⟩]
      [⟨"b", "t2", LYServerMessageEventTarget.all,
        LYServerMessageEventTarget.all, []⟩,
       ⟨"c", "t3", LYServerMessageEventTarget.all,
        LYServerMessageEventTarget.all, []⟩] 1 = none :=
  ⟨(c10_receive_event
      [⟨"a", "t1", LYServerMessageEventTarget.all,
        LYServerMessageEventTarget.all, []⟩]
      [⟨"b", "t2", LYServerMessageEventTarget.all,
        LYServerMessageEventTarget.all, []⟩] 16).1
      ⟨"b", "t2", LYServerMessageEventTarget.all,
        LYServerMessageEventTarget.all, []⟩ (by decide),
   (c10_receive_event
      [⟨"a", "t1", LYServerMessageEventTarget.all,
        LYServerMessageEventTarget.all, []⟩]
      [⟨"b", "t2", LYServerMessageEventTarget.all,
        LYServerMessageEventTarget.all, []⟩,
       ⟨"c", "t3", LYServerMessageEventTarget.all,
        LYServerMessageEventTarget.all, []⟩] 1).2.1 (by decide)⟩

/-- Claim C3 [code evaluation]: every guest-facing host call reads the
ptr/len window with an unchecked Rust slice, so an out-of-bounds ptr/len
(here: memory of size 0, ptr 0, len 1) makes the host panic instead of
failing with a GuestMemoryFault error, while an in-bounds read returns
the selected bytes. -/
theorem c3_guest_reads_panic :
    lyserver_plugin_stdout_write [] 0 1 = .panicked ∧
    lyserver_plugin_log_info [] 0 1 = .panicked ∧
    lyserver_plugin_log_warn [] 0 1 = .panicked ∧
    lyserver_plugin_log_error [] 0 1 = .panicked ∧
    lyserver_plugin_log_debug [] 0 1 = .panicked ∧
    lyserver_plugin_send_message_read [] 0 1 = .panicked ∧
    (∀ msg, lyserver_plugin_stdout_write [] 0 1 ≠ .err msg) ∧
    guestSliceRead [7, 8, 9] 1 2 = .ok [8, 9] := by
  refine ⟨by decide, by decide, by decide, by decide, by decide, by decide,
    ?_, by decide⟩
  intro msg h
  have hp : lyserver_plugin_stdout_write [] 0 1 = RResult.panicked := by
    decide
  rw [hp] at h
  exact RResult.noConfusion h

/-- Claim C4 [code evaluation]: when nothing arriving before the 10 s
handshake timeout is a plugin_init event, load_plugin returns an
initialization-timeout error but performs no teardown: the loaded-plugin
record stays in the list and its cancellation token is not cancelled. -/
theorem c4_init_timeout_no_teardown :
    load_plugin_tail [⟨"p1", false⟩] "p1"
      [.ok ⟨"x1", "http_request", LYServerMessageEventTarget.all,
        LYServerMessageEventTarget.plugin "http", []⟩] =
      (.error "Plugin p1 did not initialize within 10s",
       [⟨"p1", false⟩]) ∧
    handshakeTimeoutSecs = 10 :=
  ⟨rfl, rfl⟩

/-- Claim C5 is false as stated: in the bridge the dispatch of the
http_request event comes before the first receiver subscription, because
each wait_until_event subscribes only when it is called, after
dispatch_event. -/
theorem c5_counterexample :
    ¬ (bridgeCallSteps.indexOf BridgeStep.subscribeReceiver <
       bridgeCallSteps.indexOf BridgeStep.dispatchEvent) := by
  decide

/-- Claim C5 amended: the bridge dispatches the http_request event first
and each of the two wait_until calls subscribes its receiver when it
runs, after the dispatch; a missing intent within 5 s or a missing
response within 60 s produces a 500 fallback response to the client
rather than a crash, and an arrived intent and response yield the
response event. -/
theorem c5_amended (msgId : String) (i e : LYServerMessageEvent)
    (intentArrivals respArrivals : List RecvOutcome) :
    bridgeCallSteps.indexOf BridgeStep.dispatchEvent <
      bridgeCallSteps.indexOf BridgeStep.subscribeReceiver ∧
    bridgeResolve none
        (waitUntilEvent (responsePredicate msgId) respArrivals) =
      .fallback500 "No plugin responded with intent" ∧
    bridgeResolve (some i) none =
      .fallback500 "Plugin response timed out after 60s" ∧
    bridgeResolve (some i) (some e) = .ok e ∧
    (waitUntilEvent (intentPredicate msgId) intentArrivals = none →
      bridgeAwait msgId intentArrivals respArrivals =
        .fallback500 "No plugin responded with intent") := by
  refine ⟨by decide, rfl, rfl, rfl, ?_⟩
  intro h
  simp only [bridgeAwait, h]
  rfl

/-- Witness for C5 amended: concrete dispatch-before-subscribe order and
a concrete empty intent wait falling back to 500. -/
theorem c5_amended_witness :
    (bridgeCallSteps.indexOf BridgeStep.dispatchEvent <
      bridgeCallSteps.indexOf BridgeStep.subscribeReceiver) ∧
    bridgeAwait "m1" [] [] =
      .fallback500 "No plugin responded with intent" :=
  ⟨(c5_amended "m1"
      ⟨"m1", "t", LYServerMessageEventTarget.all,
        LYServerMessageEventTarget.all, []⟩
      ⟨"m1", "t", LYServerMessageEventTarget.all,
        LYServerMessageEventTarget.all, []⟩ [] []).1,
   (c5_amended "m1"
      ⟨"m1", "t", LYServerMessageEventTarget.all,
        LYServerMessageEventTarget.all, []⟩
      ⟨"m1", "t", LYServerMessageEventTarget.all,
        LYServerMessageEventTarget.all, []⟩ [] []).2.2.2.2 rfl⟩

/-- Claim C9 is false as stated: the one-element array holding Null has
fewer than five elements, yet TryFrom returns Err from the first match
arm (no out-of-bounds index is reached), not a panic. -/
theorem c9_counterexample :
    List.length [CValue.null] < 5 ∧
    tryFromValue (.array [.null]) = .err "Expected event_data as bytes" ∧
    tryFromValue (.array [.null]) ≠ .panicked := by
  refine ⟨by decide, rfl, ?_⟩
  intro h
  have he : tryFromValue (.array [.null]) =
      RResult.err "Expected event_data as bytes" := rfl
  rw [he] at h
  exact RResult.noConfusion h

/-- Claim C9 amended: TryFrom returns Ok only for an array whose first
five elements are bytes, text, text, text, text, read in order as data,
event_id, event_type, event_sender and event_target; a non-array value
returns Err; and an array of fewer than five elements panics through
out-of-bounds indexing exactly when its present elements all match the
expected shapes (in particular the empty array), while an ill-typed
element among them is reported with Err before the out-of-bounds index
is reached (so such an array does not panic, Err and panic being
distinct outcomes). -/
theorem c9_amended (v : CValue) (e : LYServerMessageEvent)
    (arr : List CValue) :
    (tryFromValue v = .ok e →
      ∃ dat i t s g rest,
        v = .array (.bytes dat :: .text i :: .text t :: .text s ::
          .text g :: rest) ∧
        e = ⟨i, t, .plugin g, .plugin s, dat⟩) ∧
    (v.isArray = false →
      tryFromValue v = .err "Expected CBOR array with 4 elements") ∧
    (shortWellTyped arr = true → tryFromValue (.array arr) = .panicked) ∧
    (arr.length < 5 → shortWellTyped arr = false →
      ∃ msg, tryFromValue (.array arr) = .err msg) := by
  refine ⟨?_, ?_, ?_, ?_⟩
  · intro h
    cases v with
    | null => exact absurd h (by simp [tryFromValue])
    | boolean b => exact absurd h (by simp [tryFromValue])
    | int n => exact absurd h (by simp [tryFromValue])
    | bytes bs => exact absurd h (by simp [tryFromValue])
    | text s => exact absurd h (by simp [tryFromValue])
    | array arr2 =>
      rcases arr2 with _ | ⟨a0, t0⟩
      · exact absurd h (by simp [tryFromValue, vecIndex, RResult.bind])
      cases a0 with
      | null => exact absurd h (by
          simp [tryFromValue, vecIndex, RResult.bind, expectBytes])
      | boolean b0 => exact absurd h (by
          simp [tryFromValue, vecIndex, RResult.bind, expectBytes])
      | int n0 => exact absurd h (by
          simp [tryFromValue, vecIndex, RResult.bind, expectBytes])
      | text s0 => exact absurd h (by
          simp [tryFromValue, vecIndex, RResult.bind, expectBytes])
      | array xs0 => exact absurd h (by
          simp [tryFromValue, vecIndex, RResult.bind, expectBytes])
      | bytes dat =>
        rcases t0 with _ | ⟨a1, t1⟩
        · exact absurd h (by
            simp [tryFromValue, vecIndex, RResult.bind, expectBytes])
        cases a1 with
        | null => exact absurd h (by
            simp [tryFromValue, vecIndex, RResult.bind, expectBytes,
              expectText])
        | boolean b1 => exact absurd h (by
            simp [tryFromValue, vecIndex, RResult.bind, expectBytes,
              expectText])
        | int n1 => exact absurd h (by
            simp [tryFromValue, vecIndex, RResult.bind, expectBytes,
              expectText])
        | bytes bs1 => exact absurd h (by
            simp [tryFromValue, vecIndex, RResult.bind, expectBytes,
              expectText])
        | array xs1 => exact absurd h (by
            simp [tryFromValue, vecIndex, RResult.bind, expectBytes,
              expectText])
        | text s1 =>
          rcases t1 with _ | ⟨a2, t2⟩
          · exact absurd h (by
              simp [tryFromValue, vecIndex, RResult.bind, expectBytes,
                expectText])
          cases a2 with
          | null => exact absurd h (by
              simp [tryFromValue, vecIndex, RResult.bind, expectBytes,
                expectText])
          | boolean b2 => exact absurd h (by
              simp [tryFromValue, vecIndex, RResult.bind, expectBytes,
                expectText])
          | int n2 => exact absurd h (by
              simp [tryFromValue, vecIndex, RResult.bind, expectBytes,
                expectText])
          | bytes bs2 => exact absurd h (by
              simp [tryFromValue, vecIndex, RResult.bind, expectBytes,
                expectText])
          | array xs2 => exact absurd h (by
              simp [tryFromValue, vecIndex, RResult.bind, expectBytes,
                expectText])
          | text s2 =>
            rcases t2 with _ | ⟨a3, t3⟩
            · exact absurd h (by
                simp [tryFromValue, vecIndex, RResult.bind, expectBytes,
                  expectText])
            cases a3 with
            | null => exact absurd h (by
                simp [tryFromValue, vecIndex, RResult.bind, expectBytes,
                  expectText])
            | boolean b3 => exact absurd h (by
                simp [tryFromValue, vecIndex, RResult.bind, expectBytes,
                  expectText])
            | int n3 => exact absurd h (by
                simp [tryFromValue, vecIndex, RResult.bind, expectBytes,
                  expectText])
            | bytes bs3 => exact absurd h (by
                simp [tryFromValue, vecIndex, RResult.bind, expectBytes,
                  expectText])
            | array xs3 => exact absurd h (by
                simp [tryFromValue, vecIndex, RResult.bind, expectBytes,
                  expectText])
            | text s3 =>
              rcases t3 with _ | ⟨a4, t4⟩
              · exact absurd h (by
                  simp [tryFromValue, vecIndex, RResult.bind, expectBytes,
                    expectText])
              cases a4 with
              | null => exact absurd h (by
                  simp [tryFromValue, vecIndex, RResult.bind, expectBytes,
                    expectText])
              | boolean b4 => exact absurd h (by
                  simp [tryFromValue, vecIndex, RResult.bind, expectBytes,
                    expectText])
              | int n4 => exact absurd h (by
                  simp [tryFromValue, vecIndex, RResult.bind, expectBytes,
                    expectText])
              | bytes bs4 => exact absurd h (by
                  simp [tryFromValue, vecIndex, RResult.bind, expectBytes,
                    expectText])
              | array xs4 => exact absurd h (by
                  simp [tryFromValue, vecIndex, RResult.bind, expectBytes,
                    expectText])
              | text s4 =>
                refine ⟨dat, s1, s2, s3, s4, t4, rfl, ?_⟩
                have h3 : (RResult.ok
                    (⟨s1, s2, .plugin s4, .plugin s3, dat⟩ :
                      LYServerMessageEvent) :
                    RResult LYServerMessageEvent) = .ok e := h
                injection h3 with h4
                exact h4.symm
  · intro hb
    cases v with
    | array arr2 => simp [CValue.isArray] at hb
    | null => rfl
    | boolean b => rfl
    | int n => rfl
    | bytes bs => rfl
    | text s => rfl
  · intro hw
    rcases arr with _ | ⟨a0, t0⟩
    · rfl
    cases a0 with
    | null => simp [shortWellTyped] at hw
    | boolean b0 => simp [shortWellTyped] at hw
    | int n0 => simp [shortWellTyped] at hw
    | text s0 => simp [shortWellTyped] at hw
    | array xs0 => simp [shortWellTyped] at hw
    | bytes dat =>
      simp only [shortWellTyped] at hw
      rcases t0 with _ | ⟨a1, t1⟩
      · rfl
      cases a1 with
      | null => simp [textPrefixAtMost] at hw
      | boolean b1 => simp [textPrefixAtMost] at hw
      | int n1 => simp [textPrefixAtMost] at hw
      | bytes bs1 => simp [textPrefixAtMost] at hw
      | array xs1 => simp [textPrefixAtMost] at hw
      | text s1 =>
        simp only [textPrefixAtMost] at hw
        rcases t1 with _ | ⟨a2, t2⟩
        · rfl
        cases a2 with
        | null => simp [textPrefixAtMost] at hw
        | boolean b2 => simp [textPrefixAtMost] at hw
        | int n2 => simp [textPrefixAtMost] at hw
        | bytes bs2 => simp [textPrefixAtMost] at hw
        | array xs2 => simp [textPrefixAtMost] at hw
        | text s2 =>
          simp only [textPrefixAtMost] at hw
          rcases t2 with _ | ⟨a3, t3⟩
          · rfl
          cases a3 with
          | null => simp [textPrefixAtMost] at hw
          | boolean b3 => simp [textPrefixAtMost] at hw
          | int n3 => simp [textPrefixAtMost] at hw
          | bytes bs3 => simp [textPrefixAtMost] at hw
          | array xs3 => simp [textPrefixAtMost] at hw
          | text s3 =>
            simp only [textPrefixAtMost] at hw
            rcases t3 with _ | ⟨a4, t4⟩
            · rfl
            · simp [textPrefixAtMost] at hw
  · intro hlen hw
    rcases arr with _ | ⟨a0, t0⟩
    · simp [shortWellTyped] at hw
    cases a0 with
    | null => exact ⟨"Expected event_data as bytes", rfl⟩
    | boolean b0 => exact ⟨"Expected event_data as bytes", rfl⟩
    | int n0 => exact ⟨"Expected event_data as bytes", rfl⟩
    | text s0 => exact ⟨"Expected event_data as bytes", rfl⟩
    | array xs0 => exact ⟨"Expected event_data as bytes", rfl⟩
    | bytes dat =>
      simp only [shortWellTyped] at hw
      rcases t0 with _ | ⟨a1, t1⟩
      · simp [textPrefixAtMost] at hw
      cases a1 with
      | null => exact ⟨"Expected event_id as text", rfl⟩
      | boolean b1 => exact ⟨"Expected event_id as text", rfl⟩
      | int n1 => exact ⟨"Expected event_id as text", rfl⟩
      | bytes bs1 => exact ⟨"Expected event_id as text", rfl⟩
      | array xs1 => exact ⟨"Expected event_id as text", rfl⟩
      | text s1 =>
        simp only [textPrefixAtMost] at hw
        rcases t1 with _ | ⟨a2, t2⟩
        · simp [textPrefixAtMost] at hw
        cases a2 with
        | null => exact ⟨"Expected event_type as text", rfl⟩
        | boolean b2 => exact ⟨"Expected event_type as text", rfl⟩
        | int n2 => exact ⟨"Expected event_type as text", rfl⟩
        | bytes bs2 => exact ⟨"Expected event_type as text", rfl⟩
        | array xs2 => exact ⟨"Expected event_type as text", rfl⟩
        | text s2 =>
          simp only [textPrefixAtMost] at hw
          rcases t2 with _ | ⟨a3, t3⟩
          · simp [textPrefixAtMost] at hw
          cases a3 with
          | null => exact ⟨"Expected event_sender as text", rfl⟩
          | boolean b3 => exact ⟨"Expected event_sender as text", rfl⟩
          | int n3 => exact ⟨"Expected event_sender as text", rfl⟩
          | bytes bs3 => exact ⟨"Expected event_sender as text", rfl⟩
          | array xs3 => exact ⟨"Expected event_sender as text", rfl⟩
          | text s3 =>
            rcases t3 with _ | ⟨a4, t4⟩
            · simp [textPrefixAtMost] at hw
            · exfalso
              simp only [List.length_cons] at hlen
              omega

/-- Witness for C9 amended at concrete inputs: a fully well-formed
five-element array decodes to the expected event, Null is rejected as a
non-array, the empty array panics, and the ill-typed short array holding
a single Null is reported with Err rather than a panic. -/
theorem c9_amended_witness :
    (∃ dat i t s g rest,
      (CValue.array [.bytes [1], .text "i", .text "t", .text "s",
        .text "g"]) =
        .array (.bytes dat :: .text i :: .text t :: .text s ::
          .text g :: rest) ∧
      (⟨"i", "t", LYServerMessageEventTarget.plugin "g",
        LYServerMessageEventTarget.plugin "s", [1]⟩ :
        LYServerMessageEvent) = ⟨i, t, .plugin g, .plugin s, dat⟩) ∧
    tryFromValue .null = .err "Expected CBOR array with 4 elements" ∧
    tryFromValue (.array []) = .panicked ∧
    (∃ msg, tryFromValue (.array [.null]) = .err msg) :=
  ⟨(c9_amended
      (CValue.array [.bytes [1], .text "i", .text "t", .text "s",
        .text "g"])
      ⟨"i", "t", LYServerMessageEventTarget.plugin "g",
        LYServerMessageEventTarget.plugin "s", [1]⟩ []).1 rfl,
   (c9_amended CValue.null
      ⟨"i", "t", LYServerMessageEventTarget.plugin "g",
        LYServerMessageEventTarget.plugin "s", [1]⟩ []).2.1 rfl,
   (c9_amended CValue.null
      ⟨"i", "t", LYServerMessageEventTarget.plugin "g",
        LYServerMessageEventTarget.plugin "s", [1]⟩ []).2.2.1 rfl,
   (c9_amended CValue.null
      ⟨"i", "t", LYServerMessageEventTarget.plugin "g",
        LYServerMessageEventTarget.plugin "s", [1]⟩ [.null]).2.2.2
      (by decide) rfl⟩

end LYServer
